import Mathlib

/-!
Shallow embedding of the WAL analyzer (`scripts/wal_analyzer.py`): a decoder
for 64-byte metadata slots, a paged byte-store reader, an entry analyzer that
flags padding/alignment bugs, and the report aggregation of `main`.

Bytes are modelled as `Nat` values (each byte `< 256` where produced by a
file); buffers and page files as `List Nat`; the data directory as a map from
page index to the page file's contents, `none` when the file is absent.
-/

namespace WalAnalyzer

/-- `PAGE_SIZE = 16384` from the script. -/
def PAGE_SIZE : Nat := 16384

/-- Ticks from 0001-01-01 to 1970-01-01, the constant subtracted before the
timestamp conversion. -/
def TICKS_TO_1970 : Int := 621355968000000000

/-- The decoded form of a non-empty metadata slot, the dict built by
`read_metadata_entry`.  `timestamp` is the decoded instant as microseconds
since 1970-01-01T00:00:00 UTC, `none` when `timestamp_ticks <= 0`. -/
structure LogEntry where
  index : Nat
  term : Int
  timestamp : Option Int
  length : Nat
  offset : Nat
  end_offset : Nat
deriving DecidableEq, Repr

/-- Little-endian unsigned interpretation of a byte list: the first byte is
the least significant (`struct.unpack` with format Q on 8 bytes). -/
def u64le (bs : List Nat) : Nat := bs.foldr (fun b acc => acc * 256 + b) 0

/-- Reinterpret an unsigned 64-bit value as signed two-complement
(`struct.unpack` format q). -/
def toInt64 (u : Nat) : Int := if u < 2 ^ 63 then (u : Int) else (u : Int) - 2 ^ 64

/-- The 64-byte slot at byte position `index * 64`. -/
def slotBytes (data : List Nat) (index : Nat) : List Nat :=
  (data.drop (index * 64)).take 64

/-- Bytes 0-7 of the slot: `term`, signed 64-bit little-endian. -/
def slotTerm (data : List Nat) (index : Nat) : Int :=
  toInt64 (u64le ((slotBytes data index).take 8))

/-- Bytes 8-15 of the slot: `timestamp_ticks`, signed 64-bit little-endian. -/
def slotTicks (data : List Nat) (index : Nat) : Int :=
  toInt64 (u64le (((slotBytes data index).drop 8).take 8))

/-- Bytes 16-23 of the slot: `length`, unsigned 64-bit little-endian. -/
def slotLength (data : List Nat) (index : Nat) : Nat :=
  u64le (((slotBytes data index).drop 16).take 8)

/-- Bytes 24-31 of the slot: `offset`, unsigned 64-bit little-endian. -/
def slotOffset (data : List Nat) (index : Nat) : Nat :=
  u64le (((slotBytes data index).drop 24).take 8)

/-- Timestamp conversion of `read_metadata_entry`: when `ticks > 0`, subtract
`TICKS_TO_1970` and floor-divide by 10 (Python `//`) to get microseconds since
the 1970 epoch; otherwise the timestamp is absent. -/
def ticksToTimestamp (ticks : Int) : Option Int :=
  if ticks > 0 then some (Int.fdiv (ticks - TICKS_TO_1970) 10) else none

/-- `read_metadata_entry(data, index)`: parse the 64-byte slot at
`index * 64`.  Returns `none` when fewer than 64 bytes remain, or when
`term == 0 and length == 0 and offset == 0` (empty slot). -/
def read_metadata_entry (data : List Nat) (index : Nat) : Option LogEntry :=
  if index * 64 + 64 > data.length then none
  else if slotTerm data index = 0 ∧ slotLength data index = 0 ∧ slotOffset data index = 0 then
    none
  else
    some { index := index
           term := slotTerm data index
           timestamp := ticksToTimestamp (slotTicks data index)
           length := slotLength data index
           offset := slotOffset data index
           end_offset := slotOffset data index + slotLength data index }

/-- `read_data_at_offset(data_dir, offset, length)`: locate the page file
`offset / PAGE_SIZE`; absent file reads as empty.  Seek to
`offset % PAGE_SIZE` and read up to `min(length, PAGE_SIZE - page_offset)`
bytes; a seek past the end of the file yields an empty read. -/
def read_data_at_offset (pages : Nat → Option (List Nat)) (offset length : Nat) : List Nat :=
  match pages (offset / PAGE_SIZE) with
  | none => []
  | some d =>
      (d.drop (offset % PAGE_SIZE)).take (min length (PAGE_SIZE - offset % PAGE_SIZE))

/-- The byte sequence of the expected JSON marker: 0x7b, then the characters
of a quoted dollar-type key (8 bytes total). -/
def jsonMarker : List Nat := [123, 34, 36, 116, 121, 112, 101, 34]

/-- The null-counting loop of `analyze_entry`: contiguous zero bytes from the
start of the sample, stopping at the first non-zero byte. -/
def leadingNullCount : List Nat → Nat
  | [] => 0
  | b :: rest => if b = 0 then leadingNullCount rest + 1 else 0

/-- The analysis dict of `analyze_entry`: the entry fields spread in, plus
the derived classification fields.  The textual preview is not modelled. -/
structure AnalysisResult extends LogEntry where
  starts_with_json : Bool
  leading_nulls : Nat
  crosses_page : Bool
  has_padding_bug : Bool
  remaining_in_page : Option Nat
deriving DecidableEq, Repr

/-- `analyze_entry(data_dir, entry)`: sample up to `min(length, 100)` bytes at
the entry's offset, test the marker, count leading nulls, and derive the
page-boundary fields. -/
def analyze_entry (pages : Nat → Option (List Nat)) (entry : LogEntry) : AnalysisResult :=
  let data := read_data_at_offset pages entry.offset (min entry.length 100)
  let starts_with_json := jsonMarker.isPrefixOf data
  let null_count := leadingNullCount data
  let start_page := entry.offset / PAGE_SIZE
  let end_page := (entry.offset + entry.length - 1) / PAGE_SIZE
  let page_boundary := (start_page + 1) * PAGE_SIZE
  let remaining_in_page := page_boundary - entry.offset
  { toLogEntry := entry
    starts_with_json := starts_with_json
    leading_nulls := null_count
    crosses_page := start_page != end_page
    has_padding_bug := decide (0 < null_count) && !starts_with_json
    remaining_in_page := if remaining_in_page < entry.length then some remaining_in_page else none }

/-- The decode loop of `main`: one `read_metadata_entry` per slot index below
`len(metadata) / 64`, keeping the non-`None` results in index order. -/
def collectEntries (metadata : List Nat) : List LogEntry :=
  (List.range (metadata.length / 64)).filterMap (read_metadata_entry metadata)

/-- The analysis loop of `main`: every collected entry analyzed, in order. -/
def analyses (pages : Nat → Option (List Nat)) (metadata : List Nat) : List AnalysisResult :=
  (collectEntries metadata).map (analyze_entry pages)

/-- The buggy-entry accumulation of `main`. -/
def buggyEntries (pages : Nat → Option (List Nat)) (metadata : List Nat) : List AnalysisResult :=
  (analyses pages metadata).filter (fun a => a.has_padding_bug)

/-- The count reported in the summary line of `main`. -/
def buggyCount (pages : Nat → Option (List Nat)) (metadata : List Nat) : Nat :=
  (buggyEntries pages metadata).length

/-- The status column of a row in the entry table of `main`. -/
def statusTag (a : AnalysisResult) : String :=
  if a.has_padding_bug then "BUG!" else if a.starts_with_json then "OK" else "?"

/-- One tabular row of the entry table printed by `main` (preview text not
modelled). -/
structure ReportRow where
  idx : Nat
  offset : Nat
  length : Nat
  end_offset : Nat
  page : Nat
  status : String
deriving DecidableEq, Repr

/-- The entry table of `main`: one row per collected entry, in order. -/
def reportRows (pages : Nat → Option (List Nat)) (metadata : List Nat) : List ReportRow :=
  (analyses pages metadata).map fun e =>
    { idx := e.index
      offset := e.offset
      length := e.length
      end_offset := e.end_offset
      page := e.offset / PAGE_SIZE
      status := statusTag e }

/-- The per-bug detail block printed by `main`: recorded offset, corrected
offset where content begins, page boundary, and the null count. -/
structure BugDetail where
  index : Nat
  recordedOffset : Nat
  correctedOffset : Nat
  pageBoundary : Nat
  leadingNulls : Nat
deriving DecidableEq, Repr

/-- The detail blocks of `main`, one per flagged entry. -/
def bugDetails (pages : Nat → Option (List Nat)) (metadata : List Nat) : List BugDetail :=
  (buggyEntries pages metadata).map fun e =>
    { index := e.index
      recordedOffset := e.offset
      correctedOffset := e.offset + e.leading_nulls
      pageBoundary := (e.offset / PAGE_SIZE + 1) * PAGE_SIZE
      leadingNulls := e.leading_nulls }

/-! Concrete fixtures used to evaluate the development on the end-to-end
scenario of the design: three metadata slots, slot 0 pointing at data that
starts with the marker, slot 1 pointing at data preceded by 8 zero filler
bytes, slot 2 all-zero. -/

/-- Slot 0 of the scenario metadata: term 1, ticks 0, length 20, offset 0. -/
def scenarioSlot0 : List Nat :=
  [1, 0, 0, 0, 0, 0, 0, 0] ++ List.replicate 8 0 ++
    [20, 0, 0, 0, 0, 0, 0, 0] ++ [0, 0, 0, 0, 0, 0, 0, 0] ++ List.replicate 32 0

/-- Slot 1 of the scenario metadata: term 1, ticks 0, length 20, offset 30. -/
def scenarioSlot1 : List Nat :=
  [1, 0, 0, 0, 0, 0, 0, 0] ++ List.replicate 8 0 ++
    [20, 0, 0, 0, 0, 0, 0, 0] ++ [30, 0, 0, 0, 0, 0, 0, 0] ++ List.replicate 32 0

/-- The scenario metadata file: slots 0 and 1 valid, slot 2 all-zero. -/
def scenarioMetadata : List Nat :=
  scenarioSlot0 ++ scenarioSlot1 ++ List.replicate 64 0

/-- The scenario page 0: the marker at offset 0, filler text up to offset 30,
then 8 zero filler bytes followed by the marker and trailing content. -/
def scenarioPage0 : List Nat :=
  jsonMarker ++ List.replicate 22 65 ++ List.replicate 8 0 ++ jsonMarker ++ List.replicate 12 66

/-- The scenario data directory: only page file 0 exists. -/
def scenarioPages : Nat → Option (List Nat) :=
  fun i => if i = 0 then some scenarioPage0 else none

/-- The entry decoded from slot 0 of the scenario metadata. -/
def scenarioEntry0 : LogEntry :=
  { index := 0, term := 1, timestamp := none, length := 20, offset := 0, end_offset := 20 }

/-- The entry decoded from slot 1 of the scenario metadata. -/
def scenarioEntry1 : LogEntry :=
  { index := 1, term := 1, timestamp := none, length := 20, offset := 30, end_offset := 50 }

/-- The process exit code of `main` as a function of the argument count and
whether the metadata file exists: `sys.exit(1)` when no directory argument is
given, `sys.exit(1)` when the metadata file is absent, and normal termination
(code 0) after every completed analysis. -/
def mainExitCode (argc : Nat) (metadataExists : Bool) : Nat :=
  if argc < 2 then 1 else if metadataExists then 0 else 1

/-! Helper lemmas shared by the claim theorems. -/

/-- The marker-test field of an analysis is the marker test on the sample. -/
lemma analyze_starts_def (pages : Nat → Option (List Nat)) (entry : LogEntry) :
    (analyze_entry pages entry).starts_with_json
      = jsonMarker.isPrefixOf (read_data_at_offset pages entry.offset (min entry.length 100)) := rfl

/-- The null-count field of an analysis is the null count of the sample. -/
lemma analyze_nulls_def (pages : Nat → Option (List Nat)) (entry : LogEntry) :
    (analyze_entry pages entry).leading_nulls
      = leadingNullCount (read_data_at_offset pages entry.offset (min entry.length 100)) := rfl

/-- The bug field of an analysis, in terms of the sample. -/
lemma analyze_bug_def (pages : Nat → Option (List Nat)) (entry : LogEntry) :
    (analyze_entry pages entry).has_padding_bug
      = (decide (0 < leadingNullCount (read_data_at_offset pages entry.offset (min entry.length 100)))
          && !(jsonMarker.isPrefixOf (read_data_at_offset pages entry.offset (min entry.length 100)))) := rfl

/-- Analysis keeps the entry fields unchanged. -/
lemma analyze_toLogEntry (pages : Nat → Option (List Nat)) (entry : LogEntry) :
    (analyze_entry pages entry).toLogEntry = entry := rfl

/-- Leading zeros count through a block of zeros. -/
lemma leadingNullCount_replicate_append (k : Nat) (l : List Nat) :
    leadingNullCount (List.replicate k 0 ++ l) = k + leadingNullCount l := by
  induction k with
  | zero => simp
  | succ n ih =>
      have hstep : leadingNullCount (List.replicate (n + 1) 0 ++ l)
          = leadingNullCount (List.replicate n 0 ++ l) + 1 := rfl
      rw [hstep, ih]
      omega

/-- On an all-zero sample the null count is the whole length. -/
lemma leadingNullCount_all_zero (l : List Nat) (h : ∀ b ∈ l, b = 0) :
    leadingNullCount l = l.length := by
  induction l with
  | nil => rfl
  | cons b t ih =>
      have hb : b = 0 := h b (by simp)
      have ht : ∀ x ∈ t, x = 0 := fun x hx => h x (by simp [hx])
      simp [leadingNullCount, hb, ih ht]

/-- The marker never starts an all-zero sample. -/
lemma marker_not_prefixOf_all_zero (l : List Nat) (h : ∀ b ∈ l, b = 0) :
    jsonMarker.isPrefixOf l = false := by
  cases l with
  | nil => rfl
  | cons b t =>
      have hb : b = 0 := h b (by simp)
      subst hb
      rfl

/-- The marker never starts a sample whose first byte is zero. -/
lemma marker_not_prefixOf_zero_cons (t : List Nat) :
    jsonMarker.isPrefixOf (0 :: t) = false := rfl

/-- The null count of a marker-headed sample is zero. -/
lemma leadingNullCount_marker_append (t : List Nat) :
    leadingNullCount (jsonMarker ++ t) = 0 := rfl

/-- C8: the program exits 0 exactly on completed analyses — a directory
argument was given and the metadata file exists — and exits 1 otherwise,
independently of how many bugs were found. -/
theorem wal_exit_code_spec (argc : Nat) (metadataExists : Bool) :
    mainExitCode argc metadataExists
      = if 2 ≤ argc ∧ metadataExists = true then 0 else 1 := by
  unfold mainExitCode
  split_ifs <;> first | rfl | omega | simp_all

set_option maxRecDepth 40000 in
/-- C2: on the three-slot scenario — slot 0 valid pointing at marker-headed
data, slot 1 valid pointing at data behind 8 zero filler bytes, slot 2
all-zero — the tool finds exactly 2 entries, marks entry 0 OK, flags entry 1
as the only bug, and the summary counts exactly 1 padding bug. -/
theorem wal_end_to_end_scenario :
    (collectEntries scenarioMetadata).length = 2
    ∧ (analyses scenarioPages scenarioMetadata).map (fun a => (a.index, a.has_padding_bug))
        = [(0, false), (1, true)]
    ∧ (reportRows scenarioPages scenarioMetadata).map ReportRow.status = ["OK", "BUG!"]
    ∧ buggyCount scenarioPages scenarioMetadata = 1 := by
  refine ⟨by decide, by decide, ?_, by decide⟩
  rfl

/-- C1: every analysis satisfies `has_padding_bug ↔ leading nulls > 0 and the
marker test failed`; a sample beginning with the exact marker bytes has the
marker flag set, zero leading nulls and no bug; a sample of 4 zero bytes
followed by the marker has 4 leading nulls and is flagged as a bug. -/
theorem wal_bug_flag_spec (pages : Nat → Option (List Nat)) (entry : LogEntry) :
    ((analyze_entry pages entry).has_padding_bug = true ↔
      0 < (analyze_entry pages entry).leading_nulls
        ∧ (analyze_entry pages entry).starts_with_json = false)
    ∧ (jsonMarker.isPrefixOf (read_data_at_offset pages entry.offset (min entry.length 100)) = true →
        (analyze_entry pages entry).starts_with_json = true
        ∧ (analyze_entry pages entry).leading_nulls = 0
        ∧ (analyze_entry pages entry).has_padding_bug = false)
    ∧ (∀ rest,
        read_data_at_offset pages entry.offset (min entry.length 100)
            = List.replicate 4 0 ++ (jsonMarker ++ rest) →
        (analyze_entry pages entry).leading_nulls = 4
        ∧ (analyze_entry pages entry).has_padding_bug = true) := by
  refine ⟨?_, ?_, ?_⟩
  · rw [analyze_bug_def, analyze_nulls_def, analyze_starts_def]
    rcases hp : jsonMarker.isPrefixOf (read_data_at_offset pages entry.offset (min entry.length 100)) <;>
      simp [hp]
  · intro hm
    refine ⟨by rw [analyze_starts_def]; exact hm, ?_, ?_⟩
    · have hm2 := hm
      rw [ List.isPrefixOf_iff_prefix] at hm2
      obtain ⟨t, ht⟩ := hm2
      rw [analyze_nulls_def, ← ht]
      exact leadingNullCount_marker_append t
    · rw [analyze_bug_def, hm]
      simp
  · intro rest hdata
    constructor
    · rw [analyze_nulls_def, hdata, leadingNullCount_replicate_append,
        leadingNullCount_marker_append]
    · rw [analyze_bug_def, hdata, leadingNullCount_replicate_append,
        leadingNullCount_marker_append]
      have hz : List.replicate 4 (0 : Nat) ++ (jsonMarker ++ rest)
          = 0 :: (List.replicate 3 0 ++ (jsonMarker ++ rest)) := rfl
      rw [hz, marker_not_prefixOf_zero_cons]
      rfl

/-- A page whose content is 4 zero filler bytes, the marker, then text. -/
def fourNullPage : List Nat := List.replicate 4 0 ++ (jsonMarker ++ [65, 65])

/-- A data directory holding only `fourNullPage` as page 0. -/
def fourNullPages : Nat → Option (List Nat) :=
  fun i => if i = 0 then some fourNullPage else none

/-- An entry of length 14 at offset 0, covering all of `fourNullPage`. -/
def fourNullEntry : LogEntry :=
  { index := 0, term := 1, timestamp := none, length := 14, offset := 0, end_offset := 14 }

/-- Witness for C1: the scenario's entry 0 samples marker-headed data and is
clean; the 4-filler-byte fixture counts 4 nulls and is flagged. -/
theorem wal_bug_flag_spec_witness :
    (analyze_entry scenarioPages scenarioEntry0).starts_with_json = true
    ∧ (analyze_entry fourNullPages fourNullEntry).leading_nulls = 4
    ∧ (analyze_entry fourNullPages fourNullEntry).has_padding_bug = true := by
  refine ⟨((wal_bug_flag_spec scenarioPages _).2.1 (by decide)).1, ?_, ?_⟩
  · exact ((wal_bug_flag_spec fourNullPages fourNullEntry).2.2 [65, 65] (by decide)).1
  · exact ((wal_bug_flag_spec fourNullPages fourNullEntry).2.2 [65, 65] (by decide)).2

/-- C4: the leading-filler count of an analysis is the number of contiguous
zero bytes at the head of the sample — `k` when the sample is `k` zeros
followed by a non-zero byte, 0 when the first byte is non-zero, and the full
sample length (with the marker flag false) when every sampled byte is zero. -/
theorem wal_leading_filler_spec (pages : Nat → Option (List Nat)) (entry : LogEntry) :
    (∀ k b rest, b ≠ 0 →
      read_data_at_offset pages entry.offset (min entry.length 100)
          = List.replicate k 0 ++ b :: rest →
      (analyze_entry pages entry).leading_nulls = k)
    ∧ (∀ b rest,
      read_data_at_offset pages entry.offset (min entry.length 100) = b :: rest → b ≠ 0 →
      (analyze_entry pages entry).leading_nulls = 0)
    ∧ ((∀ b ∈ read_data_at_offset pages entry.offset (min entry.length 100), b = 0) →
      (analyze_entry pages entry).leading_nulls
          = (read_data_at_offset pages entry.offset (min entry.length 100)).length
      ∧ (analyze_entry pages entry).starts_with_json = false) := by
  refine ⟨?_, ?_, ?_⟩
  · intro k b rest hb hdata
    rw [analyze_nulls_def, hdata, leadingNullCount_replicate_append]
    have hz : leadingNullCount (b :: rest) = 0 := by
      simp [leadingNullCount, hb]
    rw [hz]
    omega
  · intro b rest hdata hb
    rw [analyze_nulls_def, hdata]
    simp [leadingNullCount, hb]
  · intro hall
    constructor
    · rw [analyze_nulls_def]
      exact leadingNullCount_all_zero _ hall
    · rw [analyze_starts_def]
      exact marker_not_prefixOf_all_zero _ hall

/-- A page of five zero bytes. -/
def allZeroPage : List Nat := List.replicate 5 0

/-- A data directory holding only `allZeroPage` as page 0. -/
def allZeroPages : Nat → Option (List Nat) :=
  fun i => if i = 0 then some allZeroPage else none

/-- An entry of length 5 at offset 0, covering all of `allZeroPage`. -/
def allZeroEntry : LogEntry :=
  { index := 0, term := 1, timestamp := none, length := 5, offset := 0, end_offset := 5 }

/-- Witness for C4: the scenario's entry 1 counts its 8 filler bytes; an
entry over an all-zero 5-byte page counts all 5 bytes and fails the marker
test. -/
theorem wal_leading_filler_spec_witness :
    (analyze_entry scenarioPages scenarioEntry1).leading_nulls = 8
    ∧ (analyze_entry allZeroPages allZeroEntry).leading_nulls = 5
    ∧ (analyze_entry allZeroPages allZeroEntry).starts_with_json = false := by
  refine ⟨?_, ?_, ?_⟩
  · exact (wal_leading_filler_spec scenarioPages _).1 8 123
      [34, 36, 116, 121, 112, 101, 34, 66, 66, 66, 66] (by decide) (by decide)
  · exact ((wal_leading_filler_spec allZeroPages allZeroEntry).2.2 (by decide)).1.trans (by decide)
  · exact ((wal_leading_filler_spec allZeroPages allZeroEntry).2.2 (by decide)).2

/-- Inversion of a successful decode: the fields of the returned entry. -/
lemma decode_fields (md : List Nat) (i : Nat) (e : LogEntry)
    (h : read_metadata_entry md i = some e) :
    e.index = i
    ∧ e.term = slotTerm md i
    ∧ e.timestamp = ticksToTimestamp (slotTicks md i)
    ∧ e.length = slotLength md i
    ∧ e.offset = slotOffset md i
    ∧ e.end_offset = e.offset + e.length := by
  unfold read_metadata_entry at h
  split_ifs at h
  injection h with h
  subst h
  exact ⟨rfl, rfl, rfl, rfl, rfl, rfl⟩

/-- C3: decode returns `none` exactly when fewer than 64 bytes remain at the
slot position or the slot matches the empty pattern (`term`, `length` and
`offset` all zero, as the all-zero slot does); every returned entry is
non-empty, so an all-zero slot never yields a zero-valued entry. -/
theorem wal_decode_none_spec (data : List Nat) (index : Nat) :
    (read_metadata_entry data index = none ↔
      data.length < index * 64 + 64
      ∨ (slotTerm data index = 0 ∧ slotLength data index = 0 ∧ slotOffset data index = 0))
    ∧ (slotBytes data index = List.replicate 64 0 → read_metadata_entry data index = none)
    ∧ (∀ e, read_metadata_entry data index = some e →
        ¬(e.term = 0 ∧ e.length = 0 ∧ e.offset = 0)) := by
  refine ⟨?_, ?_, ?_⟩
  · unfold read_metadata_entry
    split_ifs with h1 h2
    · simp only [true_iff]
      left
      omega
    · simp only [true_iff]
      right
      exact h2
    · simp only [reduceCtorEq, false_iff]
      push_neg
      exact ⟨by omega, fun ht hl => fun ho => h2 ⟨ht, hl, ho⟩⟩
  · intro hz
    have hterm : slotTerm data index = 0 := by
      unfold slotTerm
      rw [hz]
      decide
    have hlen : slotLength data index = 0 := by
      unfold slotLength
      rw [hz]
      decide
    have hoff : slotOffset data index = 0 := by
      unfold slotOffset
      rw [hz]
      decide
    unfold read_metadata_entry
    split_ifs with h1 h2
    · rfl
    · rfl
    · exact absurd ⟨hterm, hlen, hoff⟩ h2
  · intro e he
    obtain ⟨-, ht, -, hl, ho, -⟩ := decode_fields data index e he
    unfold read_metadata_entry at he
    split_ifs at he with h1 h2
    rw [ht, hl, ho]
    exact h2

set_option maxRecDepth 40000 in
/-- Witness for C3: the all-zero 64-byte buffer decodes to no entry, through
both the slot-pattern direction and the iff, and the scenario's slot 0
decodes to an entry that is not zero-valued. -/
theorem wal_decode_none_spec_witness :
    read_metadata_entry (List.replicate 64 0) 0 = none
    ∧ ¬(scenarioEntry0.term = 0 ∧ scenarioEntry0.length = 0 ∧ scenarioEntry0.offset = 0) := by
  constructor
  · exact (wal_decode_none_spec (List.replicate 64 0) 0).2.1 (by decide)
  · exact (wal_decode_none_spec scenarioMetadata 0).2.2 _ (by decide)

/-- A 64-byte slot: term 5, ticks exactly the 1970 epoch constant, length 1,
offset 0. -/
def epochSlot : List Nat :=
  [5, 0, 0, 0, 0, 0, 0, 0] ++ [0, 128, 181, 247, 245, 127, 159, 8] ++
    [1, 0, 0, 0, 0, 0, 0, 0] ++ List.replicate 40 0

/-- A 64-byte slot: term 1, ticks 0, length 1, offset 0. -/
def zeroTicksSlot : List Nat :=
  [1, 0, 0, 0, 0, 0, 0, 0] ++ List.replicate 8 0 ++
    [1, 0, 0, 0, 0, 0, 0, 0] ++ List.replicate 40 0

/-- C6: a decoded entry whose raw ticks equal 621355968000000000 carries the
timestamp `some 0` — exactly 1970-01-01T00:00:00 UTC, zero microseconds from
the epoch — and a decoded entry whose raw ticks are ≤ 0 carries no timestamp
at all, never the epoch and never a negative instant. -/
theorem wal_timestamp_spec (data : List Nat) (index : Nat) (e : LogEntry)
    (h : read_metadata_entry data index = some e) :
    (slotTicks data index = TICKS_TO_1970 → e.timestamp = some 0)
    ∧ (slotTicks data index ≤ 0 → e.timestamp = none) := by
  obtain ⟨-, -, hts, -, -, -⟩ := decode_fields data index e h
  constructor
  · intro hc
    rw [hts, hc]
    unfold ticksToTimestamp
    rw [if_pos (by unfold TICKS_TO_1970; omega), sub_self]
    norm_num [Int.fdiv]
  · intro hle
    rw [hts]
    unfold ticksToTimestamp
    rw [if_neg (by omega)]

/-- The entry decoded from `epochSlot`. -/
def epochEntry : LogEntry :=
  { index := 0, term := 5, timestamp := some 0, length := 1, offset := 0, end_offset := 1 }

/-- The entry decoded from `zeroTicksSlot`. -/
def zeroTicksEntry : LogEntry :=
  { index := 0, term := 1, timestamp := none, length := 1, offset := 0, end_offset := 1 }

/-- Witness for C6: decoding `epochSlot` yields timestamp `some 0`; decoding
`zeroTicksSlot` yields no timestamp. -/
theorem wal_timestamp_spec_witness :
    epochEntry.timestamp = some 0 ∧ zeroTicksEntry.timestamp = none := by
  constructor
  · exact (wal_timestamp_spec epochSlot 0 epochEntry (by decide)).1 (by decide)
  · exact (wal_timestamp_spec zeroTicksSlot 0 zeroTicksEntry (by decide)).2 (by decide)

/-- C5: a paged read returns at most
`min maxLength (PAGE_SIZE - offset % PAGE_SIZE)` bytes; an absent page file
reads as empty; every returned byte comes from the single page file at index
`offset / PAGE_SIZE`, at its position within that page, and a within-page
offset at or past the page's data reads as empty.  The function is total, so
no read raises a fault. -/
theorem wal_read_bounds_spec (pages : Nat → Option (List Nat)) (offset maxLength : Nat) :
    (read_data_at_offset pages offset maxLength).length
        ≤ min maxLength (PAGE_SIZE - offset % PAGE_SIZE)
    ∧ (pages (offset / PAGE_SIZE) = none → read_data_at_offset pages offset maxLength = [])
    ∧ (∀ d, pages (offset / PAGE_SIZE) = some d →
        (∀ j, j < (read_data_at_offset pages offset maxLength).length →
          (read_data_at_offset pages offset maxLength)[j]? = d[offset % PAGE_SIZE + j]?)
        ∧ (d.length ≤ offset % PAGE_SIZE → read_data_at_offset pages offset maxLength = [])) := by
  refine ⟨?_, ?_, ?_⟩
  · unfold read_data_at_offset
    cases hp : pages (offset / PAGE_SIZE) with
    | none => simp
    | some d => exact List.length_take_le _ _
  · intro hp
    unfold read_data_at_offset
    rw [hp]
  · intro d hp
    constructor
    · intro j hj
      unfold read_data_at_offset at hj ⊢
      rw [hp] at hj ⊢
      have hlt : j < min maxLength (PAGE_SIZE - offset % PAGE_SIZE) :=
        lt_of_lt_of_le hj (List.length_take_le _ _)
      rw [List.getElem?_take_of_lt hlt, List.getElem?_drop]
    · intro hd
      unfold read_data_at_offset
      rw [hp]
      show (d.drop (offset % PAGE_SIZE)).take (min maxLength (PAGE_SIZE - offset % PAGE_SIZE)) = []
      rw [List.drop_eq_nil_of_le hd, List.take_nil]

/-- Witness for C5: in the scenario store, a read at the start of absent page
1 is empty; a read past the 58 data bytes of page 0 is empty; the first byte
read at offset 8 of page 0 is the byte stored at position 8 of that page. -/
theorem wal_read_bounds_spec_witness :
    read_data_at_offset scenarioPages 16384 50 = []
    ∧ read_data_at_offset scenarioPages 100 10 = []
    ∧ (read_data_at_offset scenarioPages 8 5)[0]? = scenarioPage0[8]? := by
  refine ⟨?_, ?_, ?_⟩
  · exact (wal_read_bounds_spec scenarioPages 16384 50).2.1 (by decide)
  · exact ((wal_read_bounds_spec scenarioPages 100 10).2.2 scenarioPage0 (by decide)).2 (by decide)
  · exact ((wal_read_bounds_spec scenarioPages 8 5).2.2 scenarioPage0 (by decide)).1 0 (by decide)

/-- C9: whenever the sampled byte sequence is empty — in particular when the
page file is absent, when the within-page offset lies past the page's data,
or when the entry's length is 0 — the analysis reports no marker, zero
leading nulls and no alignment bug, and the entry's status tag is a question
mark. -/
theorem wal_empty_sample_spec (pages : Nat → Option (List Nat)) (entry : LogEntry)
    (h : pages (entry.offset / PAGE_SIZE) = none
        ∨ (∀ d, pages (entry.offset / PAGE_SIZE) = some d →
            d.length ≤ entry.offset % PAGE_SIZE)
        ∨ entry.length = 0) :
    read_data_at_offset pages entry.offset (min entry.length 100) = []
    ∧ (analyze_entry pages entry).starts_with_json = false
    ∧ (analyze_entry pages entry).leading_nulls = 0
    ∧ (analyze_entry pages entry).has_padding_bug = false
    ∧ statusTag (analyze_entry pages entry) = "?" := by
  have hempty : read_data_at_offset pages entry.offset (min entry.length 100) = [] := by
    rcases h with hnone | hbeyond | hlen
    · exact (wal_read_bounds_spec pages entry.offset (min entry.length 100)).2.1 hnone
    · cases hp : pages (entry.offset / PAGE_SIZE) with
      | none => exact (wal_read_bounds_spec pages entry.offset (min entry.length 100)).2.1 hp
      | some d =>
          exact ((wal_read_bounds_spec pages entry.offset
            (min entry.length 100)).2.2 d hp).2 (hbeyond d hp)
    · unfold read_data_at_offset
      cases hp : pages (entry.offset / PAGE_SIZE) with
      | none => rfl
      | some d => rw [hlen]; simp
  have hst : (analyze_entry pages entry).starts_with_json = false := by
    rw [analyze_starts_def, hempty]
    rfl
  have hnl : (analyze_entry pages entry).leading_nulls = 0 := by
    rw [analyze_nulls_def, hempty]
    rfl
  have hbug : (analyze_entry pages entry).has_padding_bug = false := by
    rw [analyze_bug_def, hempty]
    rfl
  refine ⟨hempty, hst, hnl, hbug, ?_⟩
  unfold statusTag
  rw [hst, hbug]
  rfl

/-- An entry whose 20 bytes of data live in the absent page file 1. -/
def missingPageEntry : LogEntry :=
  { index := 2, term := 1, timestamp := none, length := 20, offset := 16384, end_offset := 16404 }

/-- Witness for C9: the scenario entry pointing into the absent page 1 samples
nothing, is not flagged, and gets the question-mark tag. -/
theorem wal_empty_sample_spec_witness :
    read_data_at_offset scenarioPages missingPageEntry.offset (min missingPageEntry.length 100) = []
    ∧ (analyze_entry scenarioPages missingPageEntry).has_padding_bug = false
    ∧ statusTag (analyze_entry scenarioPages missingPageEntry) = "?" := by
  refine ⟨?_, ?_, ?_⟩
  · exact (wal_empty_sample_spec scenarioPages missingPageEntry (Or.inl (by decide))).1
  · exact (wal_empty_sample_spec scenarioPages missingPageEntry (Or.inl (by decide))).2.2.2.1
  · exact (wal_empty_sample_spec scenarioPages missingPageEntry (Or.inl (by decide))).2.2.2.2

/-- An 8-byte window at position `a` inside the 64-byte slot view equals the
same window inside the 32-byte slot view, when the window ends by byte 32. -/
lemma slot_window_eq (x : List Nat) (a b : Nat) (hab : a + b ≤ 32) :
    ((x.take 64).drop a).take b = ((x.take 32).drop a).take b := by
  rw [List.drop_take, List.drop_take, List.take_take, List.take_take,
    Nat.min_eq_left (by omega), Nat.min_eq_left (by omega)]

/-- C10: two buffers that both hold a full 64-byte slot at the same index and
agree on that slot's first 32 bytes decode identically — the reserved bytes
32-63 never influence the decoded fields or the empty-slot decision. -/
theorem wal_decode_reserved_spec (d1 d2 : List Nat) (i : Nat)
    (h1 : i * 64 + 64 ≤ d1.length) (h2 : i * 64 + 64 ≤ d2.length)
    (hs : (d1.drop (i * 64)).take 32 = (d2.drop (i * 64)).take 32) :
    read_metadata_entry d1 i = read_metadata_entry d2 i := by
  have hw : ∀ a b, a + b ≤ 32 →
      ((slotBytes d1 i).drop a).take b = ((slotBytes d2 i).drop a).take b := by
    intro a b hab
    unfold slotBytes
    rw [slot_window_eq _ a b hab, slot_window_eq _ a b hab, hs]
  have h0 := hw 0 8 (by omega)
  rw [List.drop_zero, List.drop_zero] at h0
  have hterm : slotTerm d1 i = slotTerm d2 i := by
    unfold slotTerm
    rw [h0]
  have hticks : slotTicks d1 i = slotTicks d2 i := by
    unfold slotTicks
    rw [hw 8 8 (by omega)]
  have hlen : slotLength d1 i = slotLength d2 i := by
    unfold slotLength
    rw [hw 16 8 (by omega)]
  have hoff : slotOffset d1 i = slotOffset d2 i := by
    unfold slotOffset
    rw [hw 24 8 (by omega)]
  unfold read_metadata_entry
  rw [hterm, hticks, hlen, hoff,
    if_neg (show ¬(i * 64 + 64 > d1.length) by omega),
    if_neg (show ¬(i * 64 + 64 > d2.length) by omega)]

/-- A 64-byte slot with term 7, length 3, offset 9 and zero reserved bytes. -/
def reservedSlotA : List Nat :=
  [7, 0, 0, 0, 0, 0, 0, 0] ++ List.replicate 8 0 ++ [3, 0, 0, 0, 0, 0, 0, 0] ++
    [9, 0, 0, 0, 0, 0, 0, 0] ++ List.replicate 32 0

/-- The same slot as `reservedSlotA` except reserved byte 40 is 99. -/
def reservedSlotB : List Nat :=
  [7, 0, 0, 0, 0, 0, 0, 0] ++ List.replicate 8 0 ++ [3, 0, 0, 0, 0, 0, 0, 0] ++
    [9, 0, 0, 0, 0, 0, 0, 0] ++ (List.replicate 8 0 ++ 99 :: List.replicate 23 0)

set_option maxRecDepth 40000 in
/-- Witness for C10: the two concrete slots differing only in a reserved byte
decode to the same record. -/
theorem wal_decode_reserved_spec_witness :
    read_metadata_entry reservedSlotA 0 = read_metadata_entry reservedSlotB 0 :=
  wal_decode_reserved_spec reservedSlotA reservedSlotB 0 (by decide) (by decide) (by decide)

/-- The indices of the entries decoded from a list of slot positions are
exactly the positions whose decode succeeds, in position order. -/
lemma filterMap_decode_map_index (md : List Nat) (l : List Nat) :
    (l.filterMap (read_metadata_entry md)).map LogEntry.index
      = l.filter (fun i => (read_metadata_entry md i).isSome) := by
  induction l with
  | nil => rfl
  | cons a t ih =>
      rw [List.filterMap_cons, List.filter_cons]
      cases hd : read_metadata_entry md a with
      | none => simpa [hd] using ih
      | some e =>
          have hidx : e.index = a := (decode_fields md a e hd).1
          simp [hd, hidx, ih]

/-- C7: the report has one row per non-empty decodable slot, whose index
column lists exactly the successfully decoded slot positions in strictly
increasing order; every row satisfies `end_offset = offset + length`; the
status tag is the bug marker when flagged, OK when the sample is
marker-prefixed, and a question mark otherwise; and every detail block's
corrected offset is the recorded offset plus the leading filler count. -/
theorem wal_report_spec (pages : Nat → Option (List Nat)) (metadata : List Nat) :
    (reportRows pages metadata).map ReportRow.idx
        = (List.range (metadata.length / 64)).filter
            (fun i => (read_metadata_entry metadata i).isSome)
    ∧ ((reportRows pages metadata).map ReportRow.idx).Pairwise (· < ·)
    ∧ (∀ r ∈ reportRows pages metadata, r.end_offset = r.offset + r.length)
    ∧ (∀ a ∈ analyses pages metadata,
        (a.has_padding_bug = true → statusTag a = "BUG!")
        ∧ (a.starts_with_json = true → statusTag a = "OK")
        ∧ (a.has_padding_bug = false → a.starts_with_json = false → statusTag a = "?"))
    ∧ (∀ d ∈ bugDetails pages metadata,
        d.correctedOffset = d.recordedOffset + d.leadingNulls) := by
  have h1 : (reportRows pages metadata).map ReportRow.idx
      = (collectEntries metadata).map LogEntry.index := by
    unfold reportRows analyses
    rw [List.map_map, List.map_map]
    rfl
  have hidx : (reportRows pages metadata).map ReportRow.idx
      = (List.range (metadata.length / 64)).filter
          (fun i => (read_metadata_entry metadata i).isSome) := by
    rw [h1]
    exact filterMap_decode_map_index metadata _
  refine ⟨hidx, ?_, ?_, ?_, ?_⟩
  · rw [hidx]
    exact List.Pairwise.sublist (List.filter_sublist _) (List.pairwise_lt_range _)
  · intro r hr
    unfold reportRows at hr
    rw [List.mem_map] at hr
    obtain ⟨a, ha, rfl⟩ := hr
    unfold analyses at ha
    rw [List.mem_map] at ha
    obtain ⟨le, hle, rfl⟩ := ha
    unfold collectEntries at hle
    rw [List.mem_filterMap] at hle
    obtain ⟨j, -, hj⟩ := hle
    exact (decode_fields metadata j le hj).2.2.2.2.2
  · intro a ha
    unfold analyses at ha
    rw [List.mem_map] at ha
    obtain ⟨le, hle, rfl⟩ := ha
    refine ⟨?_, ?_, ?_⟩
    · intro hb
      simp [statusTag, hb]
    · intro hsj
      have hb : (analyze_entry pages le).has_padding_bug = false := by
        rw [analyze_bug_def, (analyze_starts_def pages le).symm.trans hsj]
        simp
      simp [statusTag, hb, hsj]
    · intro hb hsj
      simp [statusTag, hb, hsj]
  · intro d hd
    unfold bugDetails at hd
    rw [List.mem_map] at hd
    obtain ⟨a, -, rfl⟩ := hd
    rfl

set_option maxRecDepth 40000 in
/-- Witness for C7: on the scenario the index column is exactly the filtered
slot positions, and the flagged entry's status tag is the bug marker. -/
theorem wal_report_spec_witness :
    (reportRows scenarioPages scenarioMetadata).map ReportRow.idx
        = (List.range (scenarioMetadata.length / 64)).filter
            (fun i => (read_metadata_entry scenarioMetadata i).isSome)
    ∧ statusTag (analyze_entry scenarioPages scenarioEntry1) = "BUG!" := by
  constructor
  · exact (wal_report_spec scenarioPages scenarioMetadata).1
  · exact ((wal_report_spec scenarioPages scenarioMetadata).2.2.2.1
      (analyze_entry scenarioPages scenarioEntry1) (by decide)).1 (by decide)

end WalAnalyzer
